import Mathlib

set_option maxRecDepth 8000

/-!
A shallow embedding of the contact-book program `phonebook.py`: the field
validators (`Phone.__init__`, `Birthday.__init__`), `Record`, `AddressBook`,
the birthday-window query `birthdays` and the `add` command handler
`add_contact`, together with proofs of the specified properties.

Conventions of the embedding: Python strings are Lean `String`s; raised
exceptions become `Except PyErr`; the objects mutated in place (records,
the dict inside `AddressBook`) are passed and returned explicitly; the
`datetime` values the program itself builds (parsed birthdays and their
year-substituted copies) are midnight values represented by their calendar
date, while `datetime.today()` is a wall-clock value modelled as a date
together with a time of day in microseconds (`PyDateTime`).
-/

/-- Test for an ASCII decimal digit `0..9` — the notion of "decimal
digit" the specification's claims speak about. -/
def isDig (c : Char) : Bool := decide ('0' ≤ c ∧ c ≤ '9')

/-- Numeric value of a decimal digit character. -/
def digitVal (c : Char) : Nat := c.toNat - 48

/-- Non-ASCII characters accepted by Python's `str.isdigit` that the
embedding covers explicitly: the superscript digits U+00B9, U+00B2, U+00B3
and the Arabic-Indic digits U+0660..U+0669. `str.isdigit` accepts every
character of Unicode Numeric_Type Digit or Decimal; the theorems below
never assert the rejection of a character outside this table — every
proved failure direction is restricted to ASCII strings, where the table
plays no role. -/
def extraDigitChars : List Char :=
  ['¹', '²', '³', '٠', '١', '٢', '٣', '٤', '٥', '٦', '٧', '٨', '٩']

/-- The per-character test of Python `str.isdigit`: ASCII decimal digits
together with the covered Unicode digit characters. -/
def pyDigitChar (c : Char) : Bool := isDig c || extraDigitChars.contains c

/-- Python `s.isdigit()`: `s` is nonempty and every character passes the
digit-character test. -/
def pyIsdigit (s : String) : Bool := !s.toList.isEmpty && s.toList.all pyDigitChar

/-- The only exception kind the modelled code raises is `ValueError`. -/
inductive PyErr where
  | valueError (msg : String)
deriving DecidableEq, Repr

/-- Message raised by `Phone.__init__` (phonebook.py line 21). -/
def phoneMsg : String := "Телефон не містить 10 чисел"

/-- Message raised by `Birthday.__init__` (phonebook.py line 30). -/
def dateMsg : String := "Невірний формат дати. Використовуйте формат DD.MM.YYYY"

/-- Python `Phone.__init__` (phonebook.py lines 19-22): raise `ValueError`
unless the value is all digits and of length 10, else store it unchanged. -/
def phoneInit (s : String) : Except PyErr String :=
  if !pyIsdigit s || s.length != 10 then .error (.valueError phoneMsg)
  else .ok s

/-- A calendar date; the midnight `datetime` values the program parses
and builds are represented by their date. -/
structure Date where
  day : Nat
  month : Nat
  year : Nat
deriving DecidableEq, Repr

/-- Gregorian leap year, as in Python's `datetime`. -/
def isLeap (y : Nat) : Bool := (y % 4 == 0 && y % 100 != 0) || y % 400 == 0

/-- Length of a month, as in Python's `datetime`. -/
def daysInMonth (y m : Nat) : Nat :=
  if m = 2 then (if isLeap y then 29 else 28)
  else if m = 4 ∨ m = 6 ∨ m = 9 ∨ m = 11 then 30
  else 31

/-- The dates Python's `datetime` constructor accepts: years 1..9999 and a
real day of the month. -/
def validDate (d m y : Nat) : Prop :=
  1 ≤ y ∧ y ≤ 9999 ∧ 1 ≤ m ∧ m ≤ 12 ∧ 1 ≤ d ∧ d ≤ daysInMonth y m

instance (d m y : Nat) : Decidable (validDate d m y) := by
  unfold validDate; infer_instance

/-- One digit in 1..9: the one-digit alternative of the day and month
fields in CPython's `_strptime` regular expression. -/
def pNum1 : List Char → Option (Nat × List Char)
  | c :: r => if isDig c ∧ 1 ≤ digitVal c then some (digitVal c, r) else none
  | [] => none

/-- Two digits whose value lies in `lo..hi`: the two-digit alternatives of
the day field (value 1..31) and the month field (value 1..12) of CPython's
`_strptime` regular expression for the format `%d.%m.%Y`. -/
def pNum2 (lo hi : Nat) : List Char → Option (Nat × List Char)
  | c1 :: c2 :: r =>
    if isDig c1 ∧ isDig c2 ∧ lo ≤ 10 * digitVal c1 + digitVal c2 ∧
        10 * digitVal c1 + digitVal c2 ≤ hi then
      some (10 * digitVal c1 + digitVal c2, r)
    else none
  | _ => none

/-- The literal dot separator of the format `%d.%m.%Y`. -/
def pDot : List Char → Option (List Char)
  | '.' :: r => some r
  | _ => none

/-- Exactly four digits ending the input: the year field of `%Y` is four
digits, and `strptime` rejects unconverted trailing data. -/
def pYear4 : List Char → Option Nat
  | [a, b, c, e] =>
    if isDig a ∧ isDig b ∧ isDig c ∧ isDig e then
      some (1000 * digitVal a + 100 * digitVal b + 10 * digitVal c + digitVal e)
    else none
  | _ => none

/-- Month parsed with its two-digit alternatives, then the dot and year. -/
def monthTail2 (d : Nat) (s : List Char) : Option Date :=
  match pNum2 1 12 s with
  | some (m, r) =>
    match pDot r with
    | some r2 => (pYear4 r2).map fun y => ⟨d, m, y⟩
    | none => none
  | none => none

/-- Month parsed with its one-digit alternative, then the dot and year. -/
def monthTail1 (d : Nat) (s : List Char) : Option Date :=
  match pNum1 s with
  | some (m, r) =>
    match pDot r with
    | some r2 => (pYear4 r2).map fun y => ⟨d, m, y⟩
    | none => none
  | none => none

/-- After the day and its dot: the month alternatives in regex order
(two-digit alternatives before the one-digit one), with backtracking — if
the two-digit branch fails anywhere later, the one-digit branch is tried. -/
def monthTail (d : Nat) (s : List Char) : Option Date :=
  (monthTail2 d s).orElse fun _ => monthTail1 d s

/-- Day parsed with its two-digit alternatives, then the rest. -/
def dayBranch2 (s : List Char) : Option Date :=
  match pNum2 1 31 s with
  | some (d, r) =>
    match pDot r with
    | some r2 => monthTail d r2
    | none => none
  | none => none

/-- Day parsed with its one-digit alternative, then the rest. -/
def dayBranch1 (s : List Char) : Option Date :=
  match pNum1 s with
  | some (d, r) =>
    match pDot r with
    | some r2 => monthTail d r2
    | none => none
  | none => none

/-- The regex phase of CPython's `datetime.strptime(s, "%d.%m.%Y")`: the
pattern `(3[01]|[12][0-9]|0[1-9]|[1-9])\.(1[0-2]|0[1-9]|[1-9])\.([0-9]x4)`
matched against the whole string. -/
def strptimeDMY (s : List Char) : Option Date :=
  (dayBranch2 s).orElse fun _ => dayBranch1 s

/-- Python `Birthday.__init__` (phonebook.py lines 25-30):
`datetime.strptime(value, "%d.%m.%Y")` — the regex match followed by the
`datetime` constructor's calendar-validity check — with any `ValueError`
replaced by the fixed format message. -/
def birthdayInit (s : String) : Except PyErr Date :=
  match strptimeDMY s.toList with
  | some dt =>
    if validDate dt.day dt.month dt.year then .ok dt
    else .error (.valueError dateMsg)
  | none => .error (.valueError dateMsg)

/-- Two-digit zero-padded field, as `%d` and `%m` render in `strftime`
(the values rendered here are at most 31). -/
def pad2 (n : Nat) : List Char := [Nat.digitChar (n / 10), Nat.digitChar (n % 10)]

/-- Decimal rendering of the year: `%Y` in glibc `strftime` carries no
zero padding; `datetime` years are 1..9999, so four cases suffice. -/
def yearChars (y : Nat) : List Char :=
  if y < 10 then [Nat.digitChar y]
  else if y < 100 then [Nat.digitChar (y / 10), Nat.digitChar (y % 10)]
  else if y < 1000 then
    [Nat.digitChar (y / 100), Nat.digitChar (y / 10 % 10), Nat.digitChar (y % 10)]
  else
    [Nat.digitChar (y / 1000), Nat.digitChar (y / 100 % 10),
     Nat.digitChar (y / 10 % 10), Nat.digitChar (y % 10)]

/-- Python `Birthday.__str__` (phonebook.py lines 32-33):
`value.strftime("%d.%m.%Y")`. -/
def renderDMY (dt : Date) : String :=
  String.mk (pad2 dt.day ++ '.' :: (pad2 dt.month ++ '.' :: yearChars dt.year))

/-- The zero-padded `DD.MM.YYYY` spelling of a date with four-digit year. -/
def paddedDMY (d m y : Nat) : List Char :=
  pad2 d ++ '.' :: (pad2 m ++ '.' ::
    [Nat.digitChar (y / 1000), Nat.digitChar (y / 100 % 10),
     Nat.digitChar (y / 10 % 10), Nat.digitChar (y % 10)])

/-- Cumulative number of days before each month in a non-leap year. -/
def monthOffset : Nat → Nat
  | 1 => 0 | 2 => 31 | 3 => 59 | 4 => 90 | 5 => 120 | 6 => 151
  | 7 => 181 | 8 => 212 | 9 => 243 | 10 => 273 | 11 => 304 | 12 => 334
  | _ => 0

/-- Days of the year before the first of month `m` of year `y`. -/
def daysBeforeMonth (y m : Nat) : Nat :=
  monthOffset m + (if 3 ≤ m ∧ isLeap y then 1 else 0)

/-- Python `date.toordinal()`: the day number counted from 0001-01-01 = 1.
Comparison and subtraction of the program's midnight datetimes are
comparison and subtraction of these ordinals. -/
def toOrdinal (dt : Date) : Nat :=
  365 * (dt.year - 1) + (dt.year - 1) / 4 - (dt.year - 1) / 100
    + (dt.year - 1) / 400 + daysBeforeMonth dt.year dt.month + dt.day

/-- One contact: a name, the list of stored phone values, and an optional
birthday (phonebook.py lines 35-39). -/
structure Record where
  name : String
  phones : List String
  birthday : Option Date
deriving DecidableEq, Repr

/-- Python `remove_phone` (phonebook.py lines 44-45): the list
comprehension keeping the entries different from `phone`. -/
def Record.remove_phone (r : Record) (phone : String) : Record :=
  { r with phones := r.phones.filter fun p => p != phone }

/-- The loop of `edit_phone` (phonebook.py lines 48-51): overwrite the
value of the first entry equal to `old` and `break`. No validation of the
new value is performed anywhere in this method. -/
def editPhones : List String → String → String → List String
  | [], _, _ => []
  | p :: ps, o, n => if p == o then n :: ps else p :: editPhones ps o n

/-- Python `edit_phone` (phonebook.py lines 47-51). -/
def Record.edit_phone (r : Record) (o n : String) : Record :=
  { r with phones := editPhones r.phones o n }

/-- Python `add_phone` (phonebook.py lines 41-42): `Phone(phone)` may
raise, in which case nothing is appended. -/
def Record.add_phone (r : Record) (phone : String) : Except PyErr Record :=
  (phoneInit phone).map fun v => { r with phones := r.phones ++ [v] }

/-- The dict inside `AddressBook`, keys in insertion order as in Python. -/
abbrev AddressBook := List (String × Record)

/-- Python `name in self.data`. -/
def containsName (b : AddressBook) (n : String) : Bool := b.any fun p => p.1 == n

/-- Overwriting dict assignment to an existing key: the value stored under
key `n` is replaced in place. -/
def replaceAll (b : AddressBook) (n : String) (r : Record) : AddressBook :=
  b.map fun p => if p.1 == n then (p.1, r) else p

/-- Python dict assignment `self.data[record.name.value] = record`
(phonebook.py lines 67-68): overwrite in place when the key exists,
append otherwise. -/
def AddressBook.add_record (b : AddressBook) (r : Record) : AddressBook :=
  if containsName b r.name then replaceAll b r.name r else b ++ [(r.name, r)]

/-- Python `find`, i.e. `self.data.get(name)` (phonebook.py lines 70-71). -/
def AddressBook.find (b : AddressBook) (n : String) : Option Record :=
  (b.find? fun p => p.1 == n).map fun p => p.2

/-- Python `delete` (phonebook.py lines 73-75): delete the key if present,
do nothing otherwise. -/
def AddressBook.delete (b : AddressBook) (n : String) : AddressBook :=
  if containsName b n then b.filter (fun p => p.1 != n) else b

/-- Microseconds per day, the resolution of Python's `timedelta`. -/
def usPerDay : Nat := 86400000000

/-- The value of `datetime.today()` (phonebook.py line 165): a calendar
date together with the wall-clock time of day in microseconds since
midnight. The datetimes the program itself constructs (parsed birthdays
and their year-substituted copies) are midnight values, time of day 0. -/
structure PyDateTime where
  date : Date
  tod : Nat
deriving DecidableEq, Repr

/-- Microsecond timeline position of a datetime: `datetime` comparison,
subtraction and `+ timedelta(days=7)` act on this value, and `.days` of a
nonnegative `timedelta` is floor division by `usPerDay`. -/
def dtOrd (t : PyDateTime) : Nat := toOrdinal t.date * usPerDay + t.tod

/-- The body of the loop of `birthdays` (phonebook.py lines 168-173) for
one record: `none` when the record is skipped, otherwise the data of the
produced output line (name, stored birthday, days left), where
`birthday_this_year` is `record.birthday.value.replace(year=today.year)`
— a midnight datetime — compared against the wall-clock `today`. -/
def recordEntry (today : PyDateTime) (r : Record) : Option (String × Date × Nat) :=
  match r.birthday with
  | none => none
  | some bd =>
    if dtOrd today ≤ toOrdinal ⟨bd.day, bd.month, today.date.year⟩ * usPerDay ∧
        toOrdinal ⟨bd.day, bd.month, today.date.year⟩ * usPerDay
          ≤ dtOrd today + 7 * usPerDay then
      some (r.name, bd,
        (toOrdinal ⟨bd.day, bd.month, today.date.year⟩ * usPerDay - dtOrd today)
          / usPerDay)
    else none

/-- The list `upcoming_birthdays` built by `birthdays` while iterating
over `contacts.values()`. -/
def birthdaysQuery (today : PyDateTime) (b : AddressBook) :
    List (String × Date × Nat) :=
  (b.map fun p => p.2).filterMap (recordEntry today)

/-- The handler `birthdays(args, contacts)` (phonebook.py lines 163-174):
`args` is accepted and never read; `today` stands for the wall-clock
`datetime.today()`. The returned entries are rendered one per line. -/
def birthdays (args : List String) (today : PyDateTime) (b : AddressBook) :
    List (String × Date × Nat) :=
  birthdaysQuery today b

/-- Modelled from the spec (section 4.4): the windowed query
`upcoming_birthdays(book, today, window_days)` with an explicit window,
used to state that the code's window is fixed at 7 whatever argument the
`birthdays` command received. -/
def recordEntryW (w : Nat) (today : PyDateTime) (r : Record) :
    Option (String × Date × Nat) :=
  match r.birthday with
  | none => none
  | some bd =>
    if dtOrd today ≤ toOrdinal ⟨bd.day, bd.month, today.date.year⟩ * usPerDay ∧
        toOrdinal ⟨bd.day, bd.month, today.date.year⟩ * usPerDay
          ≤ dtOrd today + w * usPerDay then
      some (r.name, bd,
        (toOrdinal ⟨bd.day, bd.month, today.date.year⟩ * usPerDay - dtOrd today)
          / usPerDay)
    else none

/-- Modelled from the spec (section 4.4): the windowed query over a book. -/
def birthdaysQueryW (w : Nat) (today : PyDateTime) (b : AddressBook) :
    List (String × Date × Nat) :=
  (b.map fun p => p.2).filterMap (recordEntryW w today)

/-- The `input_error` decorator (phonebook.py lines 91-103), restricted to
the error kinds the modelled handlers can raise (all are `ValueError`). -/
def input_error (r : Except PyErr String) : String :=
  match r with
  | .ok s => s
  | .error (.valueError _) => "Будь ласка, надайте ім\u0027я та номер телефону."

/-- Reply of `add_contact` for a fresh name (phonebook.py line 113). -/
def addedMsg : String := "Контакт доданий."

/-- Reply of `add_contact` for an existing name (phonebook.py line 109). -/
def updatedMsg : String := "Контакт оновлений."

/-- The handler `add_contact(args, contacts)` (phonebook.py lines
105-116), before the decorator: unpack `name, phone, *_`, insert a fresh
empty record when the name is unknown, then `record.add_phone(phone)`
(which may raise) when `phone` is nonempty. The insertion is not rolled
back when `add_phone` raises. Returns the reply or the raised error,
together with the updated book. -/
def add_contact (args : List String) (b : AddressBook) :
    Except PyErr String × AddressBook :=
  match args with
  | name :: phone :: _ =>
    match b.find name with
    | some r =>
      if phone ≠ "" then
        match r.add_phone phone with
        | .ok r2 => (.ok updatedMsg, b.add_record r2)
        | .error e => (.error e, b)
      else (.ok updatedMsg, b)
    | none =>
      let r : Record := ⟨name, [], none⟩
      if phone ≠ "" then
        match r.add_phone phone with
        | .ok r2 => (.ok addedMsg, (b.add_record r).add_record r2)
        | .error e => (.error e, b.add_record r)
      else (.ok addedMsg, b.add_record r)
  | _ => (.error (.valueError "not enough values to unpack"), b)

/-! ### Helper lemmas about the phone validator -/

lemma phoneInit_ok (s : String) (h1 : s.length = 10)
    (h2 : s.toList.all pyDigitChar = true) :
    phoneInit s = .ok s := by
  have hne : s.toList.isEmpty = false := by
    cases hl : s.toList with
    | nil =>
      have : s.length = 0 := by
        show s.toList.length = 0
        rw [hl]; rfl
      omega
    | cons a t => rfl
  have hp : pyIsdigit s = true := by
    unfold pyIsdigit
    rw [hne, h2]
    rfl
  simp [phoneInit, hp, h1]

lemma phoneInit_error (s : String)
    (h : s.length ≠ 10 ∨ s.toList.all pyDigitChar = false) :
    phoneInit s = .error (.valueError phoneMsg) := by
  rcases h with h | h
  · have : (s.length != 10) = true := by simpa using h
    simp [phoneInit, this]
  · have : pyIsdigit s = false := by
      unfold pyIsdigit
      rw [h, Bool.and_false]
    simp [phoneInit, this]

lemma pyDigitChar_ascii (c : Char) (h : c.toNat < 128) :
    pyDigitChar c = isDig c := by
  unfold pyDigitChar
  cases hcc : extraDigitChars.contains c with
  | false => rw [Bool.or_false]
  | true =>
    exfalso
    have hmem : c ∈ extraDigitChars := List.mem_of_elem_eq_true hcc
    fin_cases hmem <;> exact absurd h (by decide)

lemma all_pyDigitChar_of_ascii (l : List Char) (h : ∀ c ∈ l, c.toNat < 128) :
    l.all pyDigitChar = l.all isDig := by
  induction l with
  | nil => rfl
  | cons a t ih =>
    rw [List.all_cons, List.all_cons, pyDigitChar_ascii a (h a (by simp)),
      ih fun c hc => h c (by simp [hc])]

/-- C2 counterexample: the program accepts `"²²²²²²²²²²"` (ten SUPERSCRIPT
TWO characters, U+00B2): `str.isdigit` is true of it and its length is 10,
so `Phone` construction succeeds and stores it unchanged, although `'²'`
is not a decimal digit. The original claim's failure direction — rejection
of every string containing a non-decimal-digit character — is false. -/
theorem phone_accepts_unicode_digits :
    phoneInit "²²²²²²²²²²" = .ok "²²²²²²²²²²" ∧
    ("²²²²²²²²²²" : String).length = 10 ∧
    isDig '²' = false :=
  ⟨rfl, rfl, rfl⟩

/-- C2 (amended): for every ASCII string, `Phone` construction succeeds
exactly when the value has length 10 and every character is a decimal
digit, storing the raw string unchanged on success and failing with the
validator's `ValueError` otherwise. Beyond ASCII the original claim
fails: `str.isdigit` also accepts Unicode digit characters such as `'²'`
(see the counterexample), so some strings containing non-decimal-digit
characters are accepted. -/
theorem phone_validation_ascii (s : String)
    (hascii : ∀ c ∈ s.toList, c.toNat < 128) :
    (phoneInit s = .ok s ↔ s.length = 10 ∧ s.toList.all isDig = true) ∧
    (∀ v, phoneInit s = .ok v → v = s) ∧
    ((s.length ≠ 10 ∨ s.toList.all isDig = false) →
      phoneInit s = .error (.valueError phoneMsg)) := by
  have hall : s.toList.all pyDigitChar = s.toList.all isDig :=
    all_pyDigitChar_of_ascii s.toList hascii
  refine ⟨⟨fun hok => ?_, fun h => phoneInit_ok s h.1 (by rw [hall]; exact h.2)⟩,
    fun v hv => ?_, fun h => phoneInit_error s ?_⟩
  · by_cases h1 : s.length = 10
    · by_cases h2 : s.toList.all isDig = true
      · exact ⟨h1, h2⟩
      · rw [phoneInit_error s (Or.inr (by rw [hall]; simpa using h2))] at hok
        exact absurd hok (by simp)
    · rw [phoneInit_error s (Or.inl h1)] at hok
      exact absurd hok (by simp)
  · unfold phoneInit at hv
    split at hv
    · exact absurd hv (by simp)
    · simpa using hv.symm
  · rcases h with h | h
    · exact Or.inl h
    · exact Or.inr (by rw [hall]; exact h)

/-- Witness for C2's amended theorem at a concrete ASCII input. -/
theorem phone_validation_ascii_witness :
    (∀ c ∈ ("050123456a" : String).toList, c.toNat < 128) ∧
    (("050123456a" : String).length ≠ 10 ∨
      ("050123456a" : String).toList.all isDig = false) ∧
    phoneInit "050123456a" = .error (.valueError phoneMsg) :=
  ⟨by decide, Or.inr (by decide),
   (phone_validation_ascii "050123456a" (by decide)).2.2 (Or.inr (by decide))⟩

/-! ### Helper lemmas about editing the phone list -/

lemma editPhones_not_mem (ps : List String) (o n : String) (h : o ∉ ps) :
    editPhones ps o n = ps := by
  induction ps with
  | nil => rfl
  | cons p t ih =>
    have hpo : (p == o) = false := by
      simp only [List.mem_cons] at h
      simp [bne_iff_ne]
      exact fun he => h (Or.inl he.symm)
    simp [editPhones, hpo]
    exact ih fun ht => h (List.mem_cons_of_mem p ht)

lemma editPhones_first (l tail : List String) (o n : String) (h : o ∉ l) :
    editPhones (l ++ o :: tail) o n = l ++ n :: tail := by
  induction l with
  | nil => simp [editPhones]
  | cons p t ih =>
    simp only [List.mem_cons] at h
    have hpo : (p == o) = false := by
      have hpn : p ≠ o := fun he => h (Or.inl he.symm)
      simpa using hpn
    rw [List.cons_append]
    simp [editPhones, hpo]
    exact ih fun ht => h (Or.inr ht)

/-- C1 counterexample: on a record storing `"0501234567"`, calling
`edit_phone("0501234567", "abc")` with the invalid new value `"abc"`
raises nothing (`edit_phone` is a total function into records) and
changes the phone list to `["abc"]` — the phone validator is never
invoked, contradicting the claim that validation happens before any
mutation and that the list is left unchanged. -/
theorem edit_phone_no_validation_counterexample :
    (⟨"Bob", ["0501234567"], none⟩ : Record).edit_phone "0501234567" "abc"
      = ⟨"Bob", ["abc"], none⟩ ∧
    phoneInit "abc" = .error (.valueError phoneMsg) := by
  constructor
  · rfl
  · rfl

/-- C1 (amended): `edit_phone(old, new)` performs no validation of `new`:
it unconditionally overwrites the first phone entry equal to `old` with
`new` — even when `new` is not a 10-digit string — and raises no error;
when no entry equals `old` it is a no-op. In particular the record is NOT
left unchanged when `new` is invalid, and no `ValueError` is raised. -/
theorem edit_phone_behavior :
    (∀ (r : Record) (l tail : List String) (o n : String), o ∉ l →
      r.phones = l ++ o :: tail →
      r.edit_phone o n = { r with phones := l ++ n :: tail }) ∧
    (∀ (r : Record) (o n : String), o ∉ r.phones → r.edit_phone o n = r) := by
  constructor
  · intro r l tail o n hl hp
    unfold Record.edit_phone
    rw [hp, editPhones_first l tail o n hl]
  · intro r o n h
    unfold Record.edit_phone
    rw [editPhones_not_mem r.phones o n h]

/-- Witness for C1's amended theorem at concrete inputs. -/
theorem edit_phone_behavior_witness :
    ("0501234567" : String) ∉ ([] : List String) ∧
    (⟨"Bob", ["0501234567", "0507654321"], none⟩ : Record).phones
      = [] ++ "0501234567" :: ["0507654321"] ∧
    (⟨"Bob", ["0501234567", "0507654321"], none⟩ : Record).edit_phone
        "0501234567" "abc"
      = ⟨"Bob", [] ++ "abc" :: ["0507654321"], none⟩ :=
  ⟨by decide, rfl,
   edit_phone_behavior.1 ⟨"Bob", ["0501234567", "0507654321"], none⟩
     [] ["0507654321"] "0501234567" "abc" (by decide) rfl⟩

/-! ### Helper lemma for counting after a filter -/

lemma count_filter_ne (ps : List String) (v p : String) (h : p ≠ v) :
    (ps.filter fun q => q != v).count p = ps.count p := by
  induction ps with
  | nil => rfl
  | cons a t ih =>
    by_cases ha : a = v
    · subst ha
      have : (a != a) = false := by simp
      rw [List.filter_cons, this]
      simp only [Bool.false_eq_true, if_neg, Bool.false_eq_true]
      rw [List.count_cons]
      have : (a == p) = false := by simp [ne_comm.mp h]
      simp [this, ih]
    · have : (a != v) = true := by simp [ha]
      rw [List.filter_cons, this]
      simp only [if_pos]
      rw [List.count_cons, List.count_cons, ih]

/-- C4: `remove_phone(value)` removes all phone entries equal to `value`
by exact string equality, keeps every other entry (with its multiplicity),
and is a no-op rather than an error when no entry matches. -/
theorem remove_phone_spec (r : Record) (v : String) :
    (∀ p, p ∈ (r.remove_phone v).phones → p ≠ v) ∧
    (∀ p, p ≠ v → ((p ∈ (r.remove_phone v).phones) ↔ p ∈ r.phones)) ∧
    (∀ p, p ≠ v → (r.remove_phone v).phones.count p = r.phones.count p) ∧
    ((∀ p, p ∈ r.phones → p ≠ v) → r.remove_phone v = r) := by
  refine ⟨?_, ?_, ?_, ?_⟩
  · intro p hp
    have := List.of_mem_filter hp
    simpa using this
  · intro p hp
    constructor
    · intro h
      exact List.mem_of_mem_filter h
    · intro h
      refine List.mem_filter.mpr ⟨h, ?_⟩
      simpa using hp
  · intro p hp
    exact count_filter_ne r.phones v p hp
  · intro h
    unfold Record.remove_phone
    have : r.phones.filter (fun q => q != v) = r.phones := by
      rw [List.filter_eq_self]
      intro a ha
      simpa using h a ha
    rw [this]

/-- Witness for C4 at concrete inputs. -/
theorem remove_phone_spec_witness :
    (∀ p, p ∈ (⟨"Bob", ["0501234567"], none⟩ : Record).phones → p ≠ "0509999999") ∧
    (⟨"Bob", ["0501234567"], none⟩ : Record).remove_phone "0509999999"
      = ⟨"Bob", ["0501234567"], none⟩ :=
  ⟨by decide,
   (remove_phone_spec ⟨"Bob", ["0501234567"], none⟩ "0509999999").2.2.2 (by decide)⟩

/-! ### Helper lemmas about the address book -/

lemma containsName_replaceAll (b : AddressBook) (n : String) (r : Record)
    (n' : String) : containsName (replaceAll b n r) n' = containsName b n' := by
  induction b with
  | nil => rfl
  | cons p t ih =>
    have hfst : (if p.1 == n then (p.1, r) else p).1 = p.1 := by
      split <;> rfl
    simp only [replaceAll, List.map_cons, containsName, List.any_cons, hfst]
    simp only [replaceAll, containsName] at ih
    rw [ih]

lemma replaceAll_replaceAll (b : AddressBook) (n : String) (r1 r2 : Record) :
    replaceAll (replaceAll b n r1) n r2 = replaceAll b n r2 := by
  induction b with
  | nil => rfl
  | cons p t ih =>
    simp only [replaceAll, List.map_cons] at *
    rw [ih]
    by_cases hp : (p.1 == n) = true
    · simp [hp]
    · simp [hp]

lemma replaceAll_of_not_contains (b : AddressBook) (n : String) (r : Record)
    (h : containsName b n = false) : replaceAll b n r = b := by
  induction b with
  | nil => rfl
  | cons p t ih =>
    simp only [containsName, List.any_cons, Bool.or_eq_false_iff] at h
    simp only [replaceAll, List.map_cons, h.1, Bool.false_eq_true, if_false]
    have := ih (by simpa [containsName] using h.2)
    simp only [replaceAll] at this
    rw [this]

lemma find_replaceAll (b : AddressBook) (n : String) (r : Record)
    (h : containsName b n = true) : (replaceAll b n r).find n = some r := by
  induction b with
  | nil => exact absurd h (by simp [containsName])
  | cons p t ih =>
    by_cases hp : (p.1 == n) = true
    · simp [replaceAll, AddressBook.find, List.find?, hp]
    · simp only [containsName, List.any_cons, hp, Bool.false_or] at h
      have := ih (by simpa [containsName] using h)
      simp only [replaceAll, AddressBook.find] at this ⊢
      simp only [List.map_cons, hp, Bool.false_eq_true, if_false]
      rw [List.find?_cons_of_neg _ (by simpa using hp)]
      exact this

lemma contains_append_single (b : AddressBook) (n : String) (r : Record) :
    containsName (b ++ [(n, r)]) n = true := by
  simp [containsName, List.any_append]

lemma find_append_single (b : AddressBook) (n : String) (r : Record)
    (h : containsName b n = false) : (b ++ [(n, r)]).find n = some r := by
  induction b with
  | nil => simp [AddressBook.find, List.find?]
  | cons p t ih =>
    simp only [containsName, List.any_cons, Bool.or_eq_false_iff] at h
    have := ih (by simpa [containsName] using h.2)
    simp only [AddressBook.find] at this ⊢
    rw [List.cons_append, List.find?_cons_of_neg _ (by simpa using h.1)]
    exact this


lemma replaceAll_append_single (b : AddressBook) (n : String) (r1 r2 : Record)
    (h : containsName b n = false) :
    replaceAll (b ++ [(n, r1)]) n r2 = b ++ [(n, r2)] := by
  unfold replaceAll
  rw [List.map_append]
  have h1 : List.map (fun p => if p.1 == n then (p.1, r2) else p) b = b := by
    have := replaceAll_of_not_contains b n r2 h
    simpa [replaceAll] using this
  rw [h1]
  simp

lemma find_none_iff (b : AddressBook) (n : String) :
    AddressBook.find b n = none ↔ containsName b n = false := by
  unfold AddressBook.find containsName
  rw [Option.map_eq_none', List.find?_eq_none, List.any_eq_false]

lemma find_filter_ne (b : AddressBook) (n m : String) (h : m ≠ n) :
    AddressBook.find (b.filter fun p => p.1 != n) m = AddressBook.find b m := by
  induction b with
  | nil => rfl
  | cons p t ih =>
    simp only [List.filter_cons]
    by_cases hpm : (p.1 == m) = true
    · have hpn : (p.1 != n) = true := by
        have : p.1 = m := by simpa using hpm
        simp [this, h]
      rw [if_pos hpn]
      simp [AddressBook.find, List.find?, hpm]
    · by_cases hpn : (p.1 != n) = true
      · rw [if_pos hpn]
        simp only [AddressBook.find] at ih ⊢
        rw [List.find?_cons_of_neg _ (by simpa using hpm),
          List.find?_cons_of_neg _ (by simpa using hpm)]
        exact ih
      · rw [if_neg hpn]
        simp only [AddressBook.find] at ih ⊢
        rw [List.find?_cons_of_neg _ (by simpa using hpm)]
        exact ih

lemma add_record_eq_pos (b : AddressBook) (r : Record)
    (h : containsName b r.name = true) :
    AddressBook.add_record b r = replaceAll b r.name r := by
  unfold AddressBook.add_record
  rw [if_pos h]

lemma add_record_eq_neg (b : AddressBook) (r : Record)
    (h : containsName b r.name = false) :
    AddressBook.add_record b r = b ++ [(r.name, r)] := by
  unfold AddressBook.add_record
  rw [if_neg (by simp [h])]

/-- C5: adding two records with the same name leaves the book as if only
the second had been added: the first record (its phones and birthday) is
entirely lost, never merged, and the name maps to the second record. -/
theorem add_record_overwrites (b : AddressBook) (r1 r2 : Record)
    (h : r1.name = r2.name) :
    AddressBook.add_record (AddressBook.add_record b r1) r2
      = AddressBook.add_record b r2 ∧
    AddressBook.find (AddressBook.add_record (AddressBook.add_record b r1) r2)
      r2.name = some r2 := by
  have key : AddressBook.add_record (AddressBook.add_record b r1) r2
      = AddressBook.add_record b r2 := by
    by_cases hc : containsName b r2.name = true
    · have hc1 : containsName b r1.name = true := by rw [h]; exact hc
      rw [add_record_eq_pos b r1 hc1, h]
      have e2 : containsName (replaceAll b r2.name r1) r2.name = true := by
        rw [containsName_replaceAll]; exact hc
      rw [add_record_eq_pos (replaceAll b r2.name r1) r2 e2,
        replaceAll_replaceAll, add_record_eq_pos b r2 hc]
    · have hc' : containsName b r2.name = false := by simpa using hc
      have hc1 : containsName b r1.name = false := by rw [h]; exact hc'
      rw [add_record_eq_neg b r1 hc1, h]
      have e2 : containsName (b ++ [(r2.name, r1)]) r2.name = true :=
        contains_append_single b r2.name r1
      rw [add_record_eq_pos (b ++ [(r2.name, r1)]) r2 e2,
        replaceAll_append_single b r2.name r1 r2 hc', add_record_eq_neg b r2 hc']
  refine ⟨key, ?_⟩
  rw [key]
  by_cases hc : containsName b r2.name = true
  · rw [add_record_eq_pos b r2 hc]
    exact find_replaceAll b r2.name r2 hc
  · have hc' : containsName b r2.name = false := by simpa using hc
    rw [add_record_eq_neg b r2 hc']
    exact find_append_single b r2.name r2 hc'

/-- Witness for C5 at concrete inputs: the second `add_record` under the
same name erases the phones of the first record. -/
theorem add_record_overwrites_witness :
    (⟨"Oleh", ["0501234567"], none⟩ : Record).name
      = (⟨"Oleh", [], some ⟨1, 2, 1990⟩⟩ : Record).name ∧
    (AddressBook.add_record
        (AddressBook.add_record [] ⟨"Oleh", ["0501234567"], none⟩)
        ⟨"Oleh", [], some ⟨1, 2, 1990⟩⟩
      = AddressBook.add_record [] ⟨"Oleh", [], some ⟨1, 2, 1990⟩⟩ ∧
     AddressBook.find
        (AddressBook.add_record
          (AddressBook.add_record [] ⟨"Oleh", ["0501234567"], none⟩)
          ⟨"Oleh", [], some ⟨1, 2, 1990⟩⟩)
        (⟨"Oleh", [], some ⟨1, 2, 1990⟩⟩ : Record).name
      = some ⟨"Oleh", [], some ⟨1, 2, 1990⟩⟩) :=
  ⟨rfl, add_record_overwrites [] ⟨"Oleh", ["0501234567"], none⟩
    ⟨"Oleh", [], some ⟨1, 2, 1990⟩⟩ rfl⟩

/-- C9: `delete(name)` removes exactly the entry stored under `name` when
present (lookups of every other name are unchanged), and when the name is
absent it raises nothing and leaves the book unchanged. -/
theorem delete_spec (b : AddressBook) (n : String) :
    AddressBook.find (AddressBook.delete b n) n = none ∧
    (∀ m, m ≠ n →
      AddressBook.find (AddressBook.delete b n) m = AddressBook.find b m) ∧
    (AddressBook.find b n = none → AddressBook.delete b n = b) := by
  refine ⟨?_, ?_, ?_⟩
  · by_cases hc : containsName b n = true
    · unfold AddressBook.delete
      rw [if_pos hc, find_none_iff]
      simp only [containsName, List.any_eq_false]
      intro p hp
      have := List.of_mem_filter hp
      simpa using this
    · unfold AddressBook.delete
      rw [if_neg (by simpa using hc), find_none_iff]
      simpa using hc
  · intro m hm
    by_cases hc : containsName b n = true
    · unfold AddressBook.delete
      rw [if_pos hc]
      exact find_filter_ne b n m hm
    · unfold AddressBook.delete
      rw [if_neg (by simpa using hc)]
  · intro hf
    unfold AddressBook.delete
    rw [if_neg (by simp [(find_none_iff b n).mp hf])]

/-- Witness for C9 at concrete inputs. -/
theorem delete_spec_witness :
    AddressBook.find [("Oleh", ⟨"Oleh", [], none⟩)] "Inna" = none ∧
    AddressBook.delete [("Oleh", ⟨"Oleh", [], none⟩)] "Inna"
      = [("Oleh", ⟨"Oleh", [], none⟩)] :=
  ⟨by decide,
   (delete_spec [("Oleh", ⟨"Oleh", [], none⟩)] "Inna").2.2 (by decide)⟩

/-- C10 counterexample: `add Oleh ²²²²²²²²²²` — a phone that is not ten
decimal digits — is accepted by the real handler, because `str.isdigit`
is true of the ten SUPERSCRIPT TWO characters: the reply is the success
message and the inserted record stores that phone, with no error
reported. The original claim asserted an error and an empty phone list
for every such input. -/
theorem add_contact_accepts_unicode_phone :
    (add_contact ["Oleh", "²²²²²²²²²²"] []).1 = .ok addedMsg ∧
    AddressBook.find (add_contact ["Oleh", "²²²²²²²²²²"] []).2 "Oleh"
      = some ⟨"Oleh", ["²²²²²²²²²²"], none⟩ ∧
    isDig '²' = false :=
  ⟨rfl, rfl, rfl⟩

/-- C10 (amended): for every ASCII phone string that is not exactly 10
decimal digits (the name absent from the book, the phone nonempty),
`add <name> <phone>` raises the phone validator's `ValueError` (rendered
by the decorator as the generic please-provide message), yet the freshly
inserted record stays in the book with an empty phone list — the
insertion is not rolled back. For non-ASCII strings the premise can fail
to mean rejection: `str.isdigit` also accepts Unicode digit characters
(see the counterexample), and such phones are accepted and stored. -/
theorem add_contact_partial_insert (b : AddressBook) (name phone : String)
    (rest : List String) (hfind : AddressBook.find b name = none)
    (hne : phone ≠ "")
    (hascii : ∀ c ∈ phone.toList, c.toNat < 128)
    (hbad : phone.length ≠ 10 ∨ phone.toList.all isDig = false) :
    (add_contact (name :: phone :: rest) b).1 = .error (.valueError phoneMsg) ∧
    AddressBook.find (add_contact (name :: phone :: rest) b).2 name
      = some ⟨name, [], none⟩ ∧
    input_error (add_contact (name :: phone :: rest) b).1
      = "Будь ласка, надайте ім\u0027я та номер телефону." := by
  have hbad' : phone.length ≠ 10 ∨ phone.toList.all pyDigitChar = false := by
    rcases hbad with h | h
    · exact Or.inl h
    · exact Or.inr (by
        rw [all_pyDigitChar_of_ascii phone.toList hascii]; exact h)
  have herr : (⟨name, [], none⟩ : Record).add_phone phone
      = .error (.valueError phoneMsg) := by
    unfold Record.add_phone
    rw [phoneInit_error phone hbad']
    rfl
  have hstep : add_contact (name :: phone :: rest) b
      = (.error (.valueError phoneMsg),
         AddressBook.add_record b ⟨name, [], none⟩) := by
    simp [add_contact, hfind, herr, hne]
  refine ⟨by rw [hstep], ?_, by rw [hstep]; rfl⟩
  rw [hstep]
  have hc : containsName b name = false := (find_none_iff b name).mp hfind
  show AddressBook.find (AddressBook.add_record b ⟨name, [], none⟩) name
    = some ⟨name, [], none⟩
  rw [add_record_eq_neg b ⟨name, [], none⟩ hc]
  exact find_append_single b name ⟨name, [], none⟩ hc

/-- Witness for C10 at concrete inputs. -/
theorem add_contact_partial_insert_witness :
    AddressBook.find [] "Oleh" = none ∧
    ("123" : String) ≠ "" ∧
    (∀ c ∈ ("123" : String).toList, c.toNat < 128) ∧
    ("123" : String).length ≠ 10 ∧
    ((add_contact ["Oleh", "123"] []).1 = .error (.valueError phoneMsg) ∧
     AddressBook.find (add_contact ["Oleh", "123"] []).2 "Oleh"
       = some ⟨"Oleh", [], none⟩ ∧
     input_error (add_contact ["Oleh", "123"] []).1
       = "Будь ласка, надайте ім\u0027я та номер телефону.") :=
  ⟨by decide, by decide, by decide, by decide,
   add_contact_partial_insert [] "Oleh" "123" [] (by decide) (by decide)
     (by decide) (Or.inl (by decide))⟩

/-! ### Helper lemmas about digits and the birthday parser -/

lemma isDig_digitChar (k : Nat) (h : k < 10) : isDig (Nat.digitChar k) = true := by
  interval_cases k <;> decide

lemma digitVal_digitChar (k : Nat) (h : k < 10) :
    digitVal (Nat.digitChar k) = k := by
  interval_cases k <;> decide

lemma pNum2_pad2 (lo hi v : Nat) (rest : List Char) (h1 : lo ≤ v) (h2 : v ≤ hi)
    (h3 : v < 100) : pNum2 lo hi (pad2 v ++ rest) = some (v, rest) := by
  have d1 : v / 10 < 10 := by omega
  have d2 : v % 10 < 10 := by omega
  have e1 := digitVal_digitChar (v / 10) d1
  have e2 := digitVal_digitChar (v % 10) d2
  have hv : 10 * digitVal (Nat.digitChar (v / 10))
      + digitVal (Nat.digitChar (v % 10)) = v := by
    rw [e1, e2]; omega
  show pNum2 lo hi
      (Nat.digitChar (v / 10) :: Nat.digitChar (v % 10) :: rest) = some (v, rest)
  simp only [pNum2]
  rw [if_pos ⟨isDig_digitChar (v / 10) d1, isDig_digitChar (v % 10) d2,
    by rw [hv]; exact h1, by rw [hv]; exact h2⟩]
  rw [hv]

lemma pYear4_digits (y : Nat) (h1 : 1000 ≤ y) (h2 : y ≤ 9999) :
    pYear4 [Nat.digitChar (y / 1000), Nat.digitChar (y / 100 % 10),
            Nat.digitChar (y / 10 % 10), Nat.digitChar (y % 10)] = some y := by
  have d1 : y / 1000 < 10 := by omega
  have d2 : y / 100 % 10 < 10 := by omega
  have d3 : y / 10 % 10 < 10 := by omega
  have d4 : y % 10 < 10 := by omega
  simp only [pYear4]
  rw [if_pos ⟨isDig_digitChar _ d1, isDig_digitChar _ d2,
    isDig_digitChar _ d3, isDig_digitChar _ d4⟩]
  rw [digitVal_digitChar _ d1, digitVal_digitChar _ d2,
    digitVal_digitChar _ d3, digitVal_digitChar _ d4]
  congr 1
  omega

lemma monthTail2_eval (d m y : Nat) (hm1 : 1 ≤ m) (hm2 : m ≤ 12)
    (hy1 : 1000 ≤ y) (hy2 : y ≤ 9999) :
    monthTail2 d (pad2 m ++ '.' ::
      [Nat.digitChar (y / 1000), Nat.digitChar (y / 100 % 10),
       Nat.digitChar (y / 10 % 10), Nat.digitChar (y % 10)]) = some ⟨d, m, y⟩ := by
  unfold monthTail2
  rw [pNum2_pad2 1 12 m _ hm1 hm2 (by omega)]
  simp only []
  rw [show pDot ('.' ::
      [Nat.digitChar (y / 1000), Nat.digitChar (y / 100 % 10),
       Nat.digitChar (y / 10 % 10), Nat.digitChar (y % 10)])
    = some [Nat.digitChar (y / 1000), Nat.digitChar (y / 100 % 10),
       Nat.digitChar (y / 10 % 10), Nat.digitChar (y % 10)] from rfl]
  simp only []
  rw [pYear4_digits y hy1 hy2]
  rfl

lemma dayBranch2_eval (d m y : Nat) (hd1 : 1 ≤ d) (hd2 : d ≤ 31)
    (hm1 : 1 ≤ m) (hm2 : m ≤ 12) (hy1 : 1000 ≤ y) (hy2 : y ≤ 9999) :
    dayBranch2 (paddedDMY d m y) = some ⟨d, m, y⟩ := by
  unfold dayBranch2
  rw [show paddedDMY d m y = pad2 d ++ ('.' :: (pad2 m ++ '.' ::
      [Nat.digitChar (y / 1000), Nat.digitChar (y / 100 % 10),
       Nat.digitChar (y / 10 % 10), Nat.digitChar (y % 10)])) from rfl]
  rw [pNum2_pad2 1 31 d _ hd1 hd2 (by omega)]
  simp only []
  rw [show pDot ('.' :: (pad2 m ++ '.' ::
      [Nat.digitChar (y / 1000), Nat.digitChar (y / 100 % 10),
       Nat.digitChar (y / 10 % 10), Nat.digitChar (y % 10)]))
    = some (pad2 m ++ '.' ::
      [Nat.digitChar (y / 1000), Nat.digitChar (y / 100 % 10),
       Nat.digitChar (y / 10 % 10), Nat.digitChar (y % 10)]) from rfl]
  simp only []
  unfold monthTail
  rw [monthTail2_eval d m y hm1 hm2 hy1 hy2]
  rfl

lemma strptime_padded (d m y : Nat) (hd1 : 1 ≤ d) (hd2 : d ≤ 31)
    (hm1 : 1 ≤ m) (hm2 : m ≤ 12) (hy1 : 1000 ≤ y) (hy2 : y ≤ 9999) :
    strptimeDMY (paddedDMY d m y) = some ⟨d, m, y⟩ := by
  unfold strptimeDMY
  rw [dayBranch2_eval d m y hd1 hd2 hm1 hm2 hy1 hy2]
  rfl

lemma daysInMonth_le31 (y m : Nat) : daysInMonth y m ≤ 31 := by
  unfold daysInMonth
  split
  · split <;> omega
  · split <;> omega

/-- C3 (amended): for every real calendar date with a four-digit year of
at least 1000, `Birthday` construction on the zero-padded `DD.MM.YYYY`
string succeeds and `str` renders the stored date back to exactly that
string. The failure direction of the original claim does not hold:
`strptime` also accepts un-zero-padded one-digit days and months (see the
counterexample), so only the round trip on the padded form is asserted.
(Years below 1000 are excluded because glibc's `%Y` renders them without
zero padding.) -/
theorem birthday_roundtrip_padded (d m y : Nat) (hv : validDate d m y)
    (hy : 1000 ≤ y) :
    birthdayInit (String.mk (paddedDMY d m y)) = .ok ⟨d, m, y⟩ ∧
    renderDMY ⟨d, m, y⟩ = String.mk (paddedDMY d m y) := by
  obtain ⟨h1, h2, h3, h4, h5, h6⟩ := hv
  have hd31 : d ≤ 31 := le_trans h6 (daysInMonth_le31 y m)
  constructor
  · unfold birthdayInit
    rw [show (String.mk (paddedDMY d m y)).toList = paddedDMY d m y from rfl]
    rw [strptime_padded d m y h5 hd31 h3 h4 hy h2]
    simp only []
    rw [if_pos ⟨h1, h2, h3, h4, h5, h6⟩]
  · show String.mk (pad2 d ++ '.' :: (pad2 m ++ '.' :: yearChars y))
      = String.mk (paddedDMY d m y)
    unfold yearChars
    rw [if_neg (by omega), if_neg (by omega), if_neg (by omega)]
    rfl

/-- Witness for C3's amended theorem at the spec's example date. -/
theorem birthday_roundtrip_padded_witness :
    validDate 1 2 1990 ∧ 1000 ≤ 1990 ∧
    (birthdayInit (String.mk (paddedDMY 1 2 1990)) = .ok ⟨1, 2, 1990⟩ ∧
     renderDMY ⟨1, 2, 1990⟩ = String.mk (paddedDMY 1 2 1990)) ∧
    String.mk (paddedDMY 1 2 1990) = "01.02.1990" :=
  ⟨by decide, by decide,
   birthday_roundtrip_padded 1 2 1990 (by decide) (by decide), by decide⟩

/-- C3 counterexample: the string `"1.2.1990"` is not of the zero-padded
form `DD.MM.YYYY` (its canonical padded rendering is `"01.02.1990"`), yet
`Birthday` construction accepts it, because `strptime`'s day and month
fields also match single digits. The original claim's failure direction
(every string not in the zero-padded format is rejected) is thus false. -/
theorem birthday_unpadded_accepted :
    birthdayInit "1.2.1990" = .ok ⟨1, 2, 1990⟩ ∧
    renderDMY ⟨1, 2, 1990⟩ = "01.02.1990" ∧
    ("1.2.1990" : String) ≠ "01.02.1990" := by
  refine ⟨rfl, rfl, by decide⟩

/-! ### The birthday-window query -/

lemma recordEntry_eq (today : PyDateTime) (r : Record) (bd : Date)
    (hb : r.birthday = some bd) :
    recordEntry today r =
      if dtOrd today ≤ toOrdinal ⟨bd.day, bd.month, today.date.year⟩ * usPerDay ∧
          toOrdinal ⟨bd.day, bd.month, today.date.year⟩ * usPerDay
            ≤ dtOrd today + 7 * usPerDay then
        some (r.name, bd,
          (toOrdinal ⟨bd.day, bd.month, today.date.year⟩ * usPerDay - dtOrd today)
            / usPerDay)
      else none := by
  simp only [recordEntry, hb]

/-- C6 counterexample: at the claim's own example — today 2024-01-01,
birthday 03.01.1985 — run at 10:00:00 (time of day 36000000000 µs), the
record is included but with `days_left = 1`, not the claimed 2, because
`datetime.today()` carries the wall-clock time while the substituted
birthday is a midnight datetime; and a birthday falling on today's own
date (01.01) is excluded, although the claimed window
`today <= birthday_this_year` is inclusive on dates. -/
theorem birthdays_wallclock_counterexample :
    recordEntry ⟨⟨1, 1, 2024⟩, 36000000000⟩ ⟨"Oleh", [], some ⟨3, 1, 1985⟩⟩
      = some ("Oleh", ⟨3, 1, 1985⟩, 1) ∧
    recordEntry ⟨⟨1, 1, 2024⟩, 36000000000⟩ ⟨"Inna", [], some ⟨1, 1, 1985⟩⟩
      = none := by
  refine ⟨by decide, by decide⟩

/-- C6 (amended): against the wall-clock `today` of `datetime.today()`,
a record with a birthday is included exactly when
`today <= birthday_this_year <= today + 7 days` as microsecond datetimes,
with `days_left` the floor of the microsecond difference in days. On the
date level this means: at midnight the claimed inclusive date window and
the exact day difference hold (the spec example gives 2), but at any
later time of day a birthday on today's own date is excluded (the lower
end is not date-inclusive) and `days_left` is the day difference minus
one (the spec example gives 1). Hypotheses keep the model inside the
domain where the code raises no exception: the birthday's month/day must
exist in `today`'s year (else `replace(year=...)` raises on Feb 29) and
`today + 7 days` must not overflow `datetime.max`. -/
theorem birthdays_window_wallclock (today : PyDateTime) (r : Record) (bd : Date)
    (hb : r.birthday = some bd)
    (hv : validDate bd.day bd.month today.date.year)
    (htod : today.tod < usPerDay)
    (hov : dtOrd today + 7 * usPerDay ≤ dtOrd ⟨⟨31, 12, 9999⟩, usPerDay - 1⟩) :
    ((recordEntry today r).isSome ↔
      (dtOrd today ≤ toOrdinal ⟨bd.day, bd.month, today.date.year⟩ * usPerDay ∧
       toOrdinal ⟨bd.day, bd.month, today.date.year⟩ * usPerDay
         ≤ dtOrd today + 7 * usPerDay)) ∧
    (∀ e, recordEntry today r = some e →
      e = (r.name, bd,
        (toOrdinal ⟨bd.day, bd.month, today.date.year⟩ * usPerDay - dtOrd today)
          / usPerDay)) ∧
    (today.tod = 0 →
      (((recordEntry today r).isSome ↔
        (toOrdinal today.date ≤ toOrdinal ⟨bd.day, bd.month, today.date.year⟩ ∧
         toOrdinal ⟨bd.day, bd.month, today.date.year⟩
           ≤ toOrdinal today.date + 7)) ∧
       (∀ e, recordEntry today r = some e →
         e.2.2 = toOrdinal ⟨bd.day, bd.month, today.date.year⟩
           - toOrdinal today.date))) ∧
    (0 < today.tod →
      ((toOrdinal ⟨bd.day, bd.month, today.date.year⟩ = toOrdinal today.date →
        recordEntry today r = none) ∧
       (∀ e, recordEntry today r = some e →
         e.2.2 = toOrdinal ⟨bd.day, bd.month, today.date.year⟩
           - toOrdinal today.date - 1))) ∧
    (∀ (b : AddressBook) (e : String × Date × Nat), recordEntry today r = some e →
      r ∈ b.map (fun p => p.2) → e ∈ birthdaysQuery today b) := by
  have heq := recordEntry_eq today r bd hb
  by_cases hc : dtOrd today ≤ toOrdinal ⟨bd.day, bd.month, today.date.year⟩ * usPerDay ∧
      toOrdinal ⟨bd.day, bd.month, today.date.year⟩ * usPerDay
        ≤ dtOrd today + 7 * usPerDay
  · have hsome : recordEntry today r
        = some (r.name, bd,
          (toOrdinal ⟨bd.day, bd.month, today.date.year⟩ * usPerDay - dtOrd today)
            / usPerDay) := by
      rw [heq, if_pos hc]
    refine ⟨?_, ?_, ?_, ?_, ?_⟩
    · rw [hsome]
      simpa using hc
    · intro e he
      rw [hsome] at he
      exact (Option.some_inj.mp he).symm
    · intro h0
      constructor
      · rw [hsome]
        simp only [Option.isSome_some, true_iff]
        have hc' := hc
        unfold dtOrd usPerDay at hc'
        rw [h0] at hc'
        exact ⟨by omega, by omega⟩
      · intro e he
        rw [hsome] at he
        obtain rfl := Option.some_inj.mp he
        show (toOrdinal ⟨bd.day, bd.month, today.date.year⟩ * usPerDay - dtOrd today)
            / usPerDay
          = toOrdinal ⟨bd.day, bd.month, today.date.year⟩ - toOrdinal today.date
        have hc' := hc.1
        unfold dtOrd usPerDay at hc' ⊢
        rw [h0] at hc' ⊢
        omega
    · intro ht0
      constructor
      · intro hBD
        exfalso
        have hc1 := hc.1
        unfold dtOrd usPerDay at hc1
        rw [hBD] at hc1
        omega
      · intro e he
        rw [hsome] at he
        obtain rfl := Option.some_inj.mp he
        show (toOrdinal ⟨bd.day, bd.month, today.date.year⟩ * usPerDay - dtOrd today)
            / usPerDay
          = toOrdinal ⟨bd.day, bd.month, today.date.year⟩ - toOrdinal today.date - 1
        have hc1 := hc.1
        unfold usPerDay at htod
        unfold dtOrd usPerDay at hc1 ⊢
        omega
    · intro b e he hmem
      exact List.mem_filterMap.mpr ⟨r, hmem, he⟩
  · have hnone : recordEntry today r = none := by
      rw [heq, if_neg hc]
    refine ⟨?_, ?_, ?_, ?_, ?_⟩
    · rw [hnone]
      simpa using hc
    · intro e he
      rw [hnone] at he
      exact absurd he (by simp)
    · intro h0
      constructor
      · rw [hnone]
        simp only [Option.isSome_none, Bool.false_eq_true, false_iff]
        intro hdate
        refine hc ?_
        obtain ⟨hx, hy⟩ := hdate
        unfold dtOrd usPerDay
        rw [h0]
        exact ⟨by omega, by omega⟩
      · intro e he
        rw [hnone] at he
        exact absurd he (by simp)
    · intro ht0
      constructor
      · intro hBD
        exact hnone
      · intro e he
        rw [hnone] at he
        exact absurd he (by simp)
    · intro b e he hmem
      exact List.mem_filterMap.mpr ⟨r, hmem, he⟩

/-- Witness for C6's amended theorem: at midnight of 2024-01-01, the
birthday 03.01.1985 is included with `days_left = 2` (the spec example
holds at midnight exactly), and 15.01.1985 is excluded. -/
theorem birthdays_window_wallclock_witness :
    (((recordEntry ⟨⟨1, 1, 2024⟩, 0⟩ ⟨"Oleh", [], some ⟨3, 1, 1985⟩⟩).isSome ↔
      (toOrdinal ⟨1, 1, 2024⟩ ≤ toOrdinal ⟨3, 1, 2024⟩ ∧
       toOrdinal ⟨3, 1, 2024⟩ ≤ toOrdinal ⟨1, 1, 2024⟩ + 7)) ∧
     (∀ e, recordEntry ⟨⟨1, 1, 2024⟩, 0⟩ ⟨"Oleh", [], some ⟨3, 1, 1985⟩⟩
         = some e →
       e.2.2 = toOrdinal ⟨3, 1, 2024⟩ - toOrdinal ⟨1, 1, 2024⟩)) ∧
    recordEntry ⟨⟨1, 1, 2024⟩, 0⟩ ⟨"Oleh", [], some ⟨3, 1, 1985⟩⟩
      = some ("Oleh", ⟨3, 1, 1985⟩, 2) ∧
    recordEntry ⟨⟨1, 1, 2024⟩, 0⟩ ⟨"Inna", [], some ⟨15, 1, 1985⟩⟩ = none :=
  ⟨(birthdays_window_wallclock ⟨⟨1, 1, 2024⟩, 0⟩ ⟨"Oleh", [], some ⟨3, 1, 1985⟩⟩
      ⟨3, 1, 1985⟩ rfl (by decide) (by decide) (by decide)).2.2.1 rfl,
   by decide, by decide⟩

/-- C7: when substituting `today`'s year into the birthday's month/day
yields a date strictly earlier than `today`'s date, the record is
silently excluded — for every time of day, since the midnight substituted
datetime then lies strictly before the wall-clock `today` — and the query
applies no year-wraparound correction. -/
theorem birthdays_wraparound_excluded (today : PyDateTime) (r : Record) (bd : Date)
    (hb : r.birthday = some bd)
    (hv : validDate bd.day bd.month today.date.year)
    (hov : dtOrd today + 7 * usPerDay ≤ dtOrd ⟨⟨31, 12, 9999⟩, usPerDay - 1⟩)
    (hlt : toOrdinal ⟨bd.day, bd.month, today.date.year⟩ < toOrdinal today.date) :
    recordEntry today r = none := by
  rw [recordEntry_eq today r bd hb, if_neg]
  intro hc
  have hc1 := hc.1
  unfold dtOrd usPerDay at hc1
  omega

/-- Witness for C7: today 2024-12-29 at 10:00, birthday 03.01.1985 — the
substituted date 03.01.2024 lies before today, so the record is dropped
although the actual birthday is days away. -/
theorem birthdays_wraparound_excluded_witness :
    recordEntry ⟨⟨29, 12, 2024⟩, 36000000000⟩ ⟨"Oleh", [], some ⟨3, 1, 1985⟩⟩
      = none :=
  birthdays_wraparound_excluded ⟨⟨29, 12, 2024⟩, 36000000000⟩
    ⟨"Oleh", [], some ⟨3, 1, 1985⟩⟩ ⟨3, 1, 1985⟩ rfl (by decide) (by decide)
    (by decide)

/-- C8: the `birthdays` handler ignores its argument list entirely — for
every book, every wall-clock `today` and every two argument lists the
output is identical — and the result always equals the spec's windowed
query instantiated with a window of exactly 7 days. -/
theorem birthdays_ignores_window_arg (args1 args2 : List String)
    (today : PyDateTime) (b : AddressBook) :
    birthdays args1 today b = birthdays args2 today b ∧
    birthdays args1 today b = birthdaysQueryW 7 today b := by
  refine ⟨rfl, ?_⟩
  unfold birthdays birthdaysQuery birthdaysQueryW
  congr 1
